import Mathlib

/-!
# IssueIndex feed client — formal model

A shallow embedding of the feed aggregation, pagination, bookmark and
engagement-logging client of the IssueIndex frontend, together with proofs
of the specified properties.

Embedded modules:

* `apps/frontend/src/lib/api/types.ts` — the page/result payload shapes as
  consumed by the for-you client (search pages, feed pages, bookmark payloads).
* the for-you page client component (`ForYouClient`) — the pure derivations
  (`items`, `searchContextByNodeId`, `recommendationContextByNodeId`,
  `handleToggleBookmark`, the item click handler) and the impression-logging
  effect, the latter as an explicit state machine over recomputation /
  network-resolution events.
* `apps/frontend/src/app/browse/client.tsx` — its `handleToggleBookmark`.
* `apps/frontend/src/lib/hooks/use-infinite-scroll.ts` — as a state machine
  over sentinel-visibility and fetch-resolution events.
* `apps/frontend/src/lib/hooks/use-auth-guard.ts` — the 401 redirect guard.
* `apps/frontend/src/lib/api/hooks.ts` — the bookmark mutation configurations
  (`useCreateBookmark` / `useDeleteBookmark`) under the react-query mutation
  lifecycle.

Conventions: JavaScript numbers that the client only passes through
(scores, timestamps are strings already) are modelled by `Int`, which is
faithful because the client performs no arithmetic on them; positions are
computed with JavaScript integer arithmetic and modelled by `Int`.
`crypto.randomUUID()` is modelled by a monotone counter threaded through the
state: the only property the client relies on is freshness (distinctness) of
the generated ids, which the counter realises.
-/

namespace IssueIndex

/-- JavaScript `String.prototype.trim` on the character sequence: drop leading
and trailing whitespace.  (Lean's `String.trim` is not kernel-reducible, so
the equivalent list-level computation is used.) -/
def jsTrim (s : String) : String :=
  ⟨((s.data.dropWhile Char.isWhitespace).reverse.dropWhile Char.isWhitespace).reverse⟩

/-- `q.trim().length > 0` — the test `ForYouClient` uses everywhere to decide
whether the search source (rather than the recommendation feed) is active. -/
def searchActive (q : String) : Bool :=
  decide (0 < (jsTrim q).length)

/-- JavaScript truthiness of a `string | null | undefined` value:
`null`/`undefined` and the empty string are falsy. -/
def strTruthy : Option String → Bool
  | none => false
  | some s => decide (s ≠ "")

/-- `why_this` entry (`Array<{entity, score}>` element) of a feed issue. -/
structure WhyThisEntry where
  entity : String
  score : Int
deriving DecidableEq, Repr

/-- A feed (recommendation) result row as consumed by `ForYouClient`
(`FeedIssue` in `types.ts`, with the optional `github_url` and `why_this`
fields the client reads via `?? null`). -/
structure FeedIssue where
  node_id : String
  title : String
  body_preview : String
  labels : List String
  q_score : Int
  repo_name : String
  primary_language : String
  github_created_at : String
  why_this : Option (List WhyThisEntry)
  github_url : Option String
deriving DecidableEq, Repr

/-- A search result row (`SearchResult` in `types.ts`, with the optional
`github_url` the client reads via `?? null`). -/
structure SearchResult where
  node_id : String
  title : String
  body_preview : String
  labels : List String
  q_score : Int
  repo_name : String
  primary_language : String
  github_created_at : String
  rrf_score : Int
  github_url : Option String
deriving DecidableEq, Repr

/-- One resolved recommendation feed page (`FeedResponse` plus the
`recommendation_batch_id` field the for-you client consumes; the batch id is
nullable even for a personalized feed). -/
structure FeedPage where
  results : List FeedIssue
  total : Int
  page : Int
  page_size : Int
  has_more : Bool
  is_personalized : Bool
  recommendation_batch_id : Option String
deriving DecidableEq, Repr

/-- One resolved search page (`SearchResponse` in `types.ts`). -/
structure SearchPage where
  search_id : String
  results : List SearchResult
  total : Int
  page : Int
  page_size : Int
  has_more : Bool
deriving DecidableEq, Repr

/-- The list-item projection `ForYouClient` renders (`IssueListItemModel`). -/
structure IssueListItemModel where
  nodeId : String
  title : String
  repoName : String
  primaryLanguage : String
  labels : List String
  qScore : Int
  createdAt : String
  bodyPreview : Option String
  whyThis : Option (List WhyThisEntry)
  githubUrl : Option String
deriving DecidableEq, Repr

/-- The search branch of the `items` memo: field-for-field projection of a
search result row, with `whyThis: null`. -/
def searchResultToItem (r : SearchResult) : IssueListItemModel :=
  { nodeId := r.node_id
    title := r.title
    repoName := r.repo_name
    primaryLanguage := r.primary_language
    labels := r.labels
    qScore := r.q_score
    createdAt := r.github_created_at
    bodyPreview := some r.body_preview
    whyThis := none
    githubUrl := r.github_url }

/-- The feed branch of the `items` memo: field-for-field projection of a feed
result row, with `whyThis: r.why_this ?? null`. -/
def feedResultToItem (r : FeedIssue) : IssueListItemModel :=
  { nodeId := r.node_id
    title := r.title
    repoName := r.repo_name
    primaryLanguage := r.primary_language
    labels := r.labels
    qScore := r.q_score
    createdAt := r.github_created_at
    bodyPreview := some r.body_preview
    whyThis := r.why_this
    githubUrl := r.github_url }

/-- The `items` memo of `ForYouClient`: when the trimmed query is non-empty,
flatten the resolved search pages in page order and project each row;
otherwise flatten the resolved feed pages in page order and project each row.
`searchPages` / `feedPages` stand for `searchQuery.data?.pages ?? []` and
`feedQuery.data?.pages ?? []`. -/
def items (q : String) (searchPages : List SearchPage) (feedPages : List FeedPage) :
    List IssueListItemModel :=
  if searchActive q then
    ((searchPages.flatMap (fun page => page.results)).map searchResultToItem)
  else
    ((feedPages.flatMap (fun page => page.results)).map feedResultToItem)

/-- Engagement context of a search-sourced item. -/
structure SearchCtx where
  searchId : String
  position : Int
deriving DecidableEq, Repr

/-- Engagement context of a recommendation-sourced item. -/
structure RecCtx where
  recommendationBatchId : String
  position : Int
deriving DecidableEq, Repr

/-- `Map.prototype.set`: point update of a string-keyed map (later insertions
win). -/
def mapSet {α : Type} (m : String → Option α) (k : String) (v : α) :
    String → Option α :=
  fun k' => if k' = k then some v else m k'

/-- A sequence of `Map.prototype.set` calls, in order. -/
def mapSets {α : Type} (m : String → Option α) (kvs : List (String × α)) :
    String → Option α :=
  kvs.foldl (fun acc kv => mapSet acc kv.1 kv.2) m

/-- The `(node_id, context)` entries inserted for one search page, in result
order: position is `(page.page - 1) * page.page_size + idx + 1`. -/
def searchPageEntries (page : SearchPage) : List (String × SearchCtx) :=
  page.results.enum.map (fun ir =>
    (ir.2.node_id,
      { searchId := page.search_id
        position := (page.page - 1) * page.page_size + (ir.1 : Int) + 1 }))

/-- The `searchContextByNodeId` memo: empty when the trimmed query is empty,
otherwise one `Map.set` per result of each resolved search page in order. -/
def searchContextByNodeId (q : String) (pages : List SearchPage) :
    String → Option SearchCtx :=
  if (jsTrim q).length = 0 then fun _ => none
  else pages.foldl (fun m page => mapSets m (searchPageEntries page)) (fun _ => none)

/-- The `(node_id, context)` entries inserted for one feed page with (truthy)
batch id `b`, in result order: position is `idx + 1` within the page. -/
def recPageEntries (b : String) (page : FeedPage) : List (String × RecCtx) :=
  page.results.enum.map (fun ir =>
    (ir.2.node_id, { recommendationBatchId := b, position := (ir.1 : Int) + 1 }))

/-- The `recommendationContextByNodeId` memo: pages whose
`recommendation_batch_id` is falsy (`null`/`undefined`/`""`) are skipped;
otherwise one `Map.set` per result in order. -/
def recommendationContextByNodeId (pages : List FeedPage) :
    String → Option RecCtx :=
  pages.foldl
    (fun m page =>
      match page.recommendation_batch_id with
      | none => m
      | some b => if b = "" then m else mapSets m (recPageEntries b page))
    (fun _ => none)

/-- Payload of `createBookmark` (`POST /bookmarks`). -/
structure CreateBookmarkPayload where
  issue_node_id : String
  github_url : String
  title_snapshot : String
  body_snapshot : String
deriving DecidableEq, Repr

/-- The single mutation a bookmark toggle issues. -/
inductive BookmarkAction where
  | delete (bookmarkId : String)
  | create (payload : CreateBookmarkPayload)
deriving DecidableEq, Repr

/-- The create payload built by `ForYouClient.handleToggleBookmark`:
`github_url` is `issue.githubUrl ?? ` the synthesized
`https://github.com/{repoName}`. -/
def forYouCreatePayload (issue : IssueListItemModel) : CreateBookmarkPayload :=
  { issue_node_id := issue.nodeId
    github_url := issue.githubUrl.getD ("https://github.com/" ++ issue.repoName)
    title_snapshot := issue.title
    body_snapshot := issue.bodyPreview.getD "" }

/-- `ForYouClient.handleToggleBookmark`: look the item up in `bookmarksMap`
(`bookmarkCheckQuery.data?.bookmarks ?? {}`, a `nodeId -> bookmarkId | null`
record); a truthy bookmark id is deleted, otherwise a create is issued. -/
def handleToggleBookmark (bookmarksMap : String → Option String)
    (issue : IssueListItemModel) : BookmarkAction :=
  match bookmarksMap issue.nodeId with
  | some bid => if bid ≠ "" then .delete bid else .create (forYouCreatePayload issue)
  | none => .create (forYouCreatePayload issue)

/-- The create payload built by the browse client's `handleToggleBookmark`:
`github_url` is always the synthesized `https://github.com/{repoName}`. -/
def browseCreatePayload (issue : IssueListItemModel) : CreateBookmarkPayload :=
  { issue_node_id := issue.nodeId
    github_url := "https://github.com/" ++ issue.repoName
    title_snapshot := issue.title
    body_snapshot := issue.bodyPreview.getD "" }

/-- `handleToggleBookmark` of `apps/frontend/src/app/browse/client.tsx`. -/
def browseHandleToggleBookmark (bookmarksMap : String → Option String)
    (issue : IssueListItemModel) : BookmarkAction :=
  match bookmarksMap issue.nodeId with
  | some bid => if bid ≠ "" then .delete bid else .create (browseCreatePayload issue)
  | none => .create (browseCreatePayload issue)

/-- One engagement event as sent to `POST /recommendations/events`
(`event_id` is a `crypto.randomUUID()` value, modelled by a fresh counter
value). -/
structure EngagementEvent where
  event_id : Nat
  event_type : String
  issue_node_id : String
  position : Int
  surface : String
deriving DecidableEq, Repr

/-- A telemetry network call issued by the item click handler: either one
search interaction (`logSearchInteraction`) or one recommendation-events call
(`logRecommendationEvents`); the two endpoints are distinct constructors. -/
inductive TelemetryCall where
  | searchInteraction (search_id : String) (selected_node_id : String) (position : Int)
  | recommendationEvents (recommendation_batch_id : String) (events : List EngagementEvent)
deriving DecidableEq, Repr

/-- The `onClick` handler of a rendered item in `ForYouClient` (minus the
`setSelectedIssueId` UI update): when the trimmed query is non-empty, log a
search interaction if the item has a search context and return; otherwise log
one click event through the recommendation-events endpoint if the item has a
recommendation context; an item without the relevant context emits nothing.
`freshId` models the `crypto.randomUUID()` value of the click event. -/
def onItemClick (q : String) (sCtx : String → Option SearchCtx)
    (rCtx : String → Option RecCtx) (nodeId : String) (freshId : Nat) :
    Option TelemetryCall :=
  if searchActive q then
    match sCtx nodeId with
    | some c => some (.searchInteraction c.searchId nodeId c.position)
    | none => none
  else
    match rCtx nodeId with
    | some c =>
        some (.recommendationEvents c.recommendationBatchId
          [{ event_id := freshId
             event_type := "click"
             issue_node_id := nodeId
             position := c.position
             surface := "for-you" }])
    | none => none

/-! ## Impression-logging effect of `ForYouClient`

The effect runs on every recomputation of `(q, feedQuery.data)`.  It keeps a
process-lifetime ref `loggedRecommendationBatchIds : Set<string>`, and for
each resolved feed page whose batch id is truthy and not in the set builds one
impression event per result, adds the batch id to the set, and submits the
page's events as one `logRecommendationEvents` call whose `onError` removes
the batch id again.  We model it as a state machine whose events are the
recomputations and the asynchronous resolutions of the submitted calls. -/

/-- One submitted `logRecommendationEvents` network call. -/
structure Submission where
  recommendation_batch_id : String
  events : List EngagementEvent
deriving DecidableEq, Repr

/-- State of the impression emitter: the `loggedRecommendationBatchIds` ref
(as a set), the batch ids of submissions still in flight, the batch ids of
submissions that resolved successfully (in resolution order), the
`crypto.randomUUID()` freshness counter, and the history of submitted calls
(in submission order). -/
structure EmitterState where
  logged : String → Bool
  inflight : List String
  succeeded : List String
  nextId : Nat
  submitted : List Submission

/-- Initial emitter state: nothing logged, nothing in flight, no history. -/
def emitterInit : EmitterState :=
  { logged := fun _ => false
    inflight := []
    succeeded := []
    nextId := 0
    submitted := [] }

/-- The impression events built for one page's results: one event per item,
`event_type: "impression"`, the item's node id, 1-based position within the
page, `surface: "for-you"`, each with a fresh id. -/
def buildImpressionEvents (firstId : Nat) (results : List FeedIssue) :
    List EngagementEvent :=
  results.enum.map (fun ir =>
    { event_id := firstId + ir.1
      event_type := "impression"
      issue_node_id := ir.2.node_id
      position := (ir.1 : Int) + 1
      surface := "for-you" })

/-- One iteration of the effect's `for (const page of pages)` loop: skip a
falsy batch id, skip a batch already in the set, skip an empty event list;
otherwise add the batch id to the set and submit the page's events. -/
def processPage (s : EmitterState) (page : FeedPage) : EmitterState :=
  match page.recommendation_batch_id with
  | none => s
  | some b =>
      if b = "" then s
      else if s.logged b then s
      else
        let events := buildImpressionEvents s.nextId page.results
        if events.isEmpty then s
        else
          { logged := fun k => if k = b then true else s.logged k
            inflight := b :: s.inflight
            succeeded := s.succeeded
            nextId := s.nextId + events.length
            submitted := s.submitted ++ [⟨b, events⟩] }

/-- One run of the effect body: an early return when the trimmed query is
non-empty, otherwise the page loop over the resolved feed pages. -/
def recomputeEmitter (s : EmitterState) (q : String) (pages : List FeedPage) :
    EmitterState :=
  if searchActive q then s else pages.foldl processPage s

/-- Asynchronous resolution of an in-flight `logRecommendationEvents` call for
batch `b`: on success the batch id stays in the set (recorded in `succeeded`);
on error the `onError` callback removes it from the set so a later
recomputation retries. -/
def resolveSubmission (s : EmitterState) (b : String) (ok : Bool) : EmitterState :=
  if b ∈ s.inflight then
    if ok then
      { s with inflight := s.inflight.erase b, succeeded := b :: s.succeeded }
    else
      { s with inflight := s.inflight.erase b
               logged := fun k => if k = b then false else s.logged k }
  else s

/-- Events driving the impression emitter: a recomputation of the effect with
the current query text and resolved feed pages, or the resolution of an
in-flight submission. -/
inductive EmitterEvent where
  | recompute (q : String) (pages : List FeedPage)
  | resolve (b : String) (ok : Bool)

/-- Step of the impression emitter machine. -/
def emitterStep (s : EmitterState) : EmitterEvent → EmitterState
  | .recompute q pages => recomputeEmitter s q pages
  | .resolve b ok => resolveSubmission s b ok

/-- Run the emitter from the initial state over a trace of events. -/
def runEmitter (t : List EmitterEvent) : EmitterState :=
  t.foldl emitterStep emitterInit

/-- Number of submissions recorded for batch `b`. -/
def subCount (subs : List Submission) (b : String) : Nat :=
  (subs.filter (fun sub => sub.recommendation_batch_id = b)).length

/-! ## Suspension-triggered loader (`use-infinite-scroll.ts`)

The hook creates an `IntersectionObserver` whose callback calls
`fetchNextPage()` when the entry intersects, `hasNextPage` is true and
`isFetchingNextPage` is false, and the effect re-subscribes (disconnecting
the old observer and creating a new one) whenever `hasNextPage`,
`isFetchingNextPage` or `fetchNextPage` changes.  Per the IntersectionObserver
specification, `observe()` always delivers an initial notification carrying
the current intersection state; subsequent notifications are delivered on
intersection transitions.  The machine below collapses both into
`loaderNotify`: a visibility transition notifies with the new visibility, and
a fetch resolution (which flips `isFetchingNextPage`, re-running the effect
and re-observing) notifies with the current visibility. -/

/-- Loader state: sentinel visibility, `hasNextPage`, `isFetchingNextPage`,
and the number of `fetchNextPage()` calls made so far. -/
structure LoaderState where
  visible : Bool
  hasNext : Bool
  fetching : Bool
  calls : Nat
deriving DecidableEq, Repr

/-- Delivery of one observer notification: the callback's guard
`entry.isIntersecting && hasNextPage && !isFetchingNextPage`, and the
`fetchNextPage()` call when it passes. -/
def loaderNotify (s : LoaderState) : LoaderState :=
  if s.visible && s.hasNext && !s.fetching then
    { s with fetching := true, calls := s.calls + 1 }
  else s

/-- Events driving the loader: a change of the sentinel's intersection state,
or the resolution of the in-flight page fetch (carrying whether the resolved
page reports `has_more` and whether the appended items pushed the sentinel out
of the viewport). -/
inductive LoaderEvent where
  | setVisible (b : Bool)
  | resolve (hasMore : Bool) (grewPast : Bool)

/-- Step of the loader machine.  A visibility event equal to the current
state delivers no notification (the observer reports transitions only); a
resolution clears `isFetchingNextPage`, updates `hasNextPage` from the
resolved page, updates visibility if the list grew past the sentinel, and —
because the effect's dependencies changed — re-subscribes, whereupon the new
observer delivers its initial notification. -/
def loaderStep (s : LoaderState) : LoaderEvent → LoaderState
  | .setVisible b =>
      if b = s.visible then s else loaderNotify { s with visible := b }
  | .resolve hasMore grewPast =>
      if s.fetching then
        loaderNotify
          { s with fetching := false, hasNext := hasMore,
                   visible := s.visible && !grewPast }
      else s

/-- Run the loader from a given state over a trace of events. -/
def runLoader (s : LoaderState) (t : List LoaderEvent) : LoaderState :=
  t.foldl loaderStep s

/-! ## Auth guard (`use-auth-guard.ts`) and the for-you render gate -/

/-- The shape of the error the guard inspects: whether it is an axios error,
and `err.response?.status`. -/
structure ApiError where
  isAxiosError : Bool
  status : Option Nat
deriving DecidableEq, Repr

/-- Result state of the `useMe()` query (`GET /auth/me`). -/
structure MeQueryState where
  isLoading : Bool
  isSuccess : Bool
  isError : Bool
  error : Option ApiError
deriving DecidableEq, Repr

/-- `is401`: `axios.isAxiosError(err) && err.response?.status === 401`. -/
def is401 : Option ApiError → Bool
  | none => false
  | some e => e.isAxiosError && e.status == some 401

/-- The guard's redirect effect: `router.replace("/login")` exactly when the
`useMe` query is in error state with a 401 axios error; `none` means no
navigation is performed. -/
def authGuardEffect (m : MeQueryState) : Option String :=
  if m.isError && is401 m.error then some "/login" else none

/-- `isRedirecting` as returned by `useAuthGuard`. -/
def isRedirecting (m : MeQueryState) : Bool :=
  m.isError && is401 m.error

/-- The `if (isRedirecting) return null;` gate of `ForYouClient`: whether the
page renders its feed UI (and hence can accept any further item
interaction). -/
def forYouRendersFeed (m : MeQueryState) : Bool :=
  !isRedirecting m

/-! ## Bookmark mutations (`useCreateBookmark` / `useDeleteBookmark`)

react-query mutation lifecycle: an optional `onMutate` runs before the
network call, `onSuccess` runs after a successful one, and a failure is
captured in the mutation result (never thrown at the caller).  The two
bookmark mutations configure no `onMutate` and an `onSuccess` that only
invalidates the `["bookmarks"]` query key. -/

/-- The client-side query cache as relevant to bookmarks: the cached bookmark
index data (`nodeId -> bookmarkId | null`) and the staleness mark of the
`["bookmarks"]` key family. -/
structure QueryCache where
  bookmarks : String → Option String
  bookmarksStale : Bool

/-- `queryClient.invalidateQueries({ queryKey: ["bookmarks"] })`: marks the
key family stale (a refetch happens later); the cached data is untouched. -/
def invalidateBookmarks (c : QueryCache) : QueryCache :=
  { c with bookmarksStale := true }

/-- A react-query mutation configuration over the bookmark cache: the
presence/content of `onMutate` and `onSuccess`. -/
structure MutationSpec (α β : Type) where
  onMutate : Option (α → QueryCache → QueryCache)
  onSuccess : Option (β → QueryCache → QueryCache)

/-- Server bookmark record (response of `POST /bookmarks`). -/
structure Bookmark where
  id : String
  issue_node_id : String
  github_url : String
  title_snapshot : String
  body_snapshot : String
  is_resolved : Bool
  created_at : String
  notes_count : Nat
deriving DecidableEq, Repr

/-- Outcome of the network call underlying a mutation. -/
inductive MutationOutcome (β : Type) where
  | ok (value : β)
  | err (message : String)
deriving DecidableEq, Repr

/-- `useCreateBookmark()`: no `onMutate`, `onSuccess` invalidates
`["bookmarks"]`. -/
def createBookmarkMutation : MutationSpec CreateBookmarkPayload Bookmark :=
  { onMutate := none
    onSuccess := some (fun _ => invalidateBookmarks) }

/-- `useDeleteBookmark()`: no `onMutate`, `onSuccess` invalidates
`["bookmarks"]`. -/
def deleteBookmarkMutation : MutationSpec String Unit :=
  { onMutate := none
    onSuccess := some (fun _ => invalidateBookmarks) }

/-- The react-query mutation lifecycle applied to a cache: run `onMutate` (if
configured), perform the network call, run `onSuccess` on success; a failure
leaves the cache as `onMutate` left it and is returned as a value. -/
def runMutation {α β : Type} (ms : MutationSpec α β) (input : α)
    (server : MutationOutcome β) (c : QueryCache) :
    QueryCache × MutationOutcome β :=
  let c1 := match ms.onMutate with
    | some f => f input c
    | none => c
  match server with
  | .ok b =>
      (match ms.onSuccess with
        | some f => f b c1
        | none => c1,
       .ok b)
  | .err m => (c1, .err m)

/-- The saved/unsaved state the UI renders for a node:
`!!bookmarksMap[nodeId]` over the cached index. -/
def isSavedFor (c : QueryCache) (nodeId : String) : Bool :=
  strTruthy (c.bookmarks nodeId)

/-- Sum of the lengths of the result lists of the first `i` pages: the number
of concatenated items that precede page `i`'s items. -/
def cumLen (sp : List SearchPage) (i : Nat) : Nat :=
  ((sp.take i).map (fun p => p.results.length)).sum

/-- The key/value pairs the `recommendationContextByNodeId` loop inserts for
one page: none when the batch id is falsy, otherwise one per result. -/
def recPageKVs (page : FeedPage) : List (String × RecCtx) :=
  match page.recommendation_batch_id with
  | none => []
  | some b => if b = "" then [] else recPageEntries b page

/-- Concrete search result used to instantiate proved properties. -/
def sampleSearchResult : SearchResult :=
  { node_id := "sn1", title := "fix parser", body_preview := "body",
    labels := ["bug"], q_score := 1, repo_name := "acme/widgets",
    primary_language := "TypeScript", github_created_at := "2024-01-01",
    rrf_score := 3, github_url := none }

/-- Concrete search result on a second page. -/
def sampleSearchResult2 : SearchResult :=
  { node_id := "sn2", title := "add docs", body_preview := "body2",
    labels := [], q_score := 1, repo_name := "acme/widgets",
    primary_language := "TypeScript", github_created_at := "2024-01-02",
    rrf_score := 2, github_url := some "https://github.com/acme/widgets/issues/2" }

/-- Concrete resolved search page 1 (full page of size 1). -/
def sampleSearchPage : SearchPage :=
  { search_id := "s1", results := [sampleSearchResult], total := 2, page := 1,
    page_size := 1, has_more := true }

/-- Concrete resolved search page 2. -/
def sampleSearchPage2 : SearchPage :=
  { search_id := "s1", results := [sampleSearchResult2], total := 2, page := 2,
    page_size := 1, has_more := false }

/-- Concrete feed result used to instantiate proved properties. -/
def sampleFeedIssue : FeedIssue :=
  { node_id := "fn1", title := "feed one", body_preview := "fb1",
    labels := [], q_score := 1, repo_name := "acme/widgets",
    primary_language := "TypeScript", github_created_at := "2024-01-03",
    why_this := some [{ entity := "react", score := 9 }], github_url := none }

/-- Second concrete feed result. -/
def sampleFeedIssue2 : FeedIssue :=
  { node_id := "fn2", title := "feed two", body_preview := "fb2",
    labels := ["good first issue"], q_score := 1, repo_name := "acme/gears",
    primary_language := "Rust", github_created_at := "2024-01-04",
    why_this := none, github_url := some "https://github.com/acme/gears/issues/9" }

/-- Concrete resolved feed page carrying batch id `b1` and two items. -/
def sampleFeedPage : FeedPage :=
  { results := [sampleFeedIssue, sampleFeedIssue2], total := 42, page := 1,
    page_size := 20, has_more := true, is_personalized := true,
    recommendation_batch_id := some "b1" }

/-- Concrete feed page with a batch id but no results. -/
def emptyFeedPage : FeedPage :=
  { results := [], total := 0, page := 1, page_size := 20, has_more := false,
    is_personalized := true, recommendation_batch_id := some "b2" }

/-- Invariant of the impression emitter, maintained by every event:
in-flight and succeeded batches are in the logged set; at most one submission
per batch is in flight; a batch succeeds at most once; every generated event
id is below the freshness counter and all ids across the submission history
are pairwise distinct; and every logged batch has a non-empty submission in
the history. -/
structure EmitterInv (s : EmitterState) : Prop where
  inflight_logged : ∀ b ∈ s.inflight, s.logged b = true
  succeeded_logged : ∀ b ∈ s.succeeded, s.logged b = true
  inflight_nodup : s.inflight.Nodup
  disj : ∀ b ∈ s.inflight, b ∉ s.succeeded
  succ_count : ∀ b : String, s.succeeded.count b ≤ 1
  ids_bound : ∀ sub ∈ s.submitted, ∀ e ∈ sub.events, e.event_id < s.nextId
  ids_nodup : (s.submitted.flatMap (fun sub => sub.events.map (fun e => e.event_id))).Nodup
  logged_sub : ∀ b : String, s.logged b = true →
    ∃ sub ∈ s.submitted, sub.recommendation_batch_id = b ∧ sub.events ≠ []

/-- A concrete emitter trace: one recomputation that sees batch `b1`. -/
def sampleTrace : List EmitterEvent :=
  [.recompute "" [sampleFeedPage]]

/-- Concrete rendered item with an explicit issue link. -/
def sampleItemWithLink : IssueListItemModel :=
  { nodeId := "n7", title := "leaky hose", repoName := "acme/widgets",
    primaryLanguage := "TypeScript", labels := [], qScore := 1,
    createdAt := "2024-01-05", bodyPreview := some "drip",
    whyThis := none, githubUrl := some "https://github.com/acme/widgets/issues/7" }

/-! ## Lemmas about `Map.set` folds -/

theorem mapSets_append {α : Type} (m : String → Option α)
    (kvs kvs' : List (String × α)) :
    mapSets m (kvs ++ kvs') = mapSets (mapSets m kvs) kvs' := by
  simp [mapSets, List.foldl_append]

theorem mapSets_not_mem {α : Type} (m : String → Option α)
    (kvs : List (String × α)) (k : String)
    (h : k ∉ kvs.map Prod.fst) : mapSets m kvs k = m k := by
  induction kvs generalizing m with
  | nil => rfl
  | cons kv rest ih =>
      simp only [List.map_cons, List.mem_cons] at h
      push_neg at h
      simp only [mapSets, List.foldl_cons]
      have := ih (mapSet m kv.1 kv.2) h.2
      simp only [mapSets] at this
      rw [this, mapSet, if_neg h.1]

theorem mapSets_mem_nodup {α : Type} (m : String → Option α)
    (kvs : List (String × α)) (k : String) (v : α)
    (hnd : (kvs.map Prod.fst).Nodup) (hkv : (k, v) ∈ kvs) :
    mapSets m kvs k = some v := by
  induction kvs generalizing m with
  | nil => cases hkv
  | cons kv rest ih =>
      simp only [List.map_cons, List.nodup_cons] at hnd
      rcases List.mem_cons.mp hkv with h | h
      · subst h
        have hk : k ∉ rest.map Prod.fst := hnd.1
        simp only [mapSets, List.foldl_cons]
        have := mapSets_not_mem (mapSet m k v) rest k hk
        simp only [mapSets] at this
        rw [this, mapSet, if_pos rfl]
      · simp only [mapSets, List.foldl_cons]
        exact ih (mapSet m kv.1 kv.2) hnd.2 h

theorem foldl_mapSets_eq {α π : Type} (f : π → List (String × α))
    (ps : List π) (m : String → Option α) :
    ps.foldl (fun acc p => mapSets acc (f p)) m = mapSets m (ps.flatMap f) := by
  induction ps generalizing m with
  | nil => rfl
  | cons p rest ih =>
      simp only [List.foldl_cons, List.flatMap_cons, mapSets_append]
      exact ih (mapSets m (f p))

/-- Keys inserted for one search page are the page's node ids in order. -/
theorem searchPageEntries_keys (p : SearchPage) :
    (searchPageEntries p).map Prod.fst = p.results.map (fun r => r.node_id) := by
  simp only [searchPageEntries, List.map_map]
  have : (fun ir : Nat × SearchResult => ir.2.node_id)
      = (fun r : SearchResult => r.node_id) ∘ Prod.snd := rfl
  calc p.results.enum.map
        (Prod.fst ∘ fun ir =>
          (ir.2.node_id,
            ({ searchId := p.search_id,
               position := (p.page - 1) * p.page_size + (ir.1 : Int) + 1 } : SearchCtx)))
      = p.results.enum.map ((fun r : SearchResult => r.node_id) ∘ Prod.snd) := rfl
    _ = (p.results.enum.map Prod.snd).map (fun r => r.node_id) := by
        rw [List.map_map]
    _ = p.results.map (fun r => r.node_id) := by rw [List.enum_map_snd]

/-- Keys inserted for one feed page are the page's node ids in order. -/
theorem recPageEntries_keys (b : String) (p : FeedPage) :
    (recPageEntries b p).map Prod.fst = p.results.map (fun r => r.node_id) := by
  simp only [recPageEntries, List.map_map]
  calc p.results.enum.map
        (Prod.fst ∘ fun ir =>
          (ir.2.node_id,
            ({ recommendationBatchId := b, position := (ir.1 : Int) + 1 } : RecCtx)))
      = (p.results.enum.map Prod.snd).map (fun r => r.node_id) := by
        rw [List.map_map]; rfl
    _ = p.results.map (fun r => r.node_id) := by rw [List.enum_map_snd]

theorem getElem?_some_lt {α : Type} {l : List α} {n : Nat} {a : α}
    (h : l[n]? = some a) : n < l.length := by
  by_contra hn
  push_neg at hn
  rw [List.getElem?_eq_none hn] at h
  cases h

/-- Indexing into a flattened list of lists: the item at offset `idx` of the
`i`-th block sits at the cumulative index (sum of earlier block lengths plus
`idx`). -/
theorem flatten_getElem? {α : Type} (L : List (List α)) (i idx : Nat)
    (l : List α) (x : α) (hi : L[i]? = some l) (hx : l[idx]? = some x) :
    L.flatten[(((L.take i).map List.length).sum + idx)]? = some x := by
  induction L generalizing i with
  | nil => cases hi
  | cons hd tl ih =>
      cases i with
      | zero =>
          simp only [List.getElem?_cons_zero, Option.some.injEq] at hi
          subst hi
          simp only [List.take_zero, List.map_nil, List.sum_nil, Nat.zero_add,
            List.flatten_cons]
          rw [List.getElem?_append_left (getElem?_some_lt hx)]
          exact hx
      | succ i =>
          simp only [List.getElem?_cons_succ] at hi
          simp only [List.take_succ_cons, List.map_cons, List.sum_cons,
            List.flatten_cons]
          have hle : hd.length ≤ hd.length + ((tl.take i).map List.length).sum + idx := by
            omega
          rw [List.getElem?_append_right hle]
          have harith : hd.length + ((tl.take i).map List.length).sum + idx - hd.length
              = ((tl.take i).map List.length).sum + idx := by omega
          rw [harith]
          exact ih i hi

theorem recommendationContextByNodeId_eq (pages : List FeedPage) :
    recommendationContextByNodeId pages
      = mapSets (fun _ => none) (pages.flatMap recPageKVs) := by
  have hfun : (fun (m : String → Option RecCtx) (page : FeedPage) =>
      match page.recommendation_batch_id with
      | none => m
      | some b => if b = "" then m else mapSets m (recPageEntries b page))
      = fun m page => mapSets m (recPageKVs page) := by
    funext m page
    rcases hb : page.recommendation_batch_id with _ | b
    · simp [recPageKVs, hb, mapSets]
    · by_cases he : b = ""
      · simp [recPageKVs, hb, he, mapSets]
      · simp [recPageKVs, hb, he]
  rw [recommendationContextByNodeId, hfun]
  exact foldl_mapSets_eq recPageKVs pages (fun _ => none)

theorem searchContextByNodeId_eq (q : String) (sp : List SearchPage)
    (hq : searchActive q = true) :
    searchContextByNodeId q sp
      = mapSets (fun _ => none) (sp.flatMap searchPageEntries) := by
  have hlen : ¬ (jsTrim q).length = 0 := by
    have := of_decide_eq_true hq
    omega
  rw [searchContextByNodeId, if_neg hlen]
  exact foldl_mapSets_eq searchPageEntries sp (fun _ => none)

/-- Keys of the flattened search entries are the node ids of the concatenated
results. -/
theorem searchEntries_flat_keys (sp : List SearchPage) :
    (sp.flatMap searchPageEntries).map Prod.fst
      = (sp.flatMap (fun p => p.results)).map (fun r => r.node_id) := by
  rw [List.map_flatMap, List.map_flatMap]
  exact List.flatMap_congr (fun p _ => searchPageEntries_keys p)

/-- Keys of the flattened recommendation entries form a sublist of the node
ids of the concatenated feed results. -/
theorem recEntries_flat_keys_sublist (fp : List FeedPage) :
    List.Sublist ((fp.flatMap recPageKVs).map Prod.fst)
      ((fp.flatMap (fun p => p.results)).map (fun r => r.node_id)) := by
  rw [List.map_flatMap, List.map_flatMap]
  induction fp with
  | nil => simp
  | cons p rest ih =>
      simp only [List.flatMap_cons]
      refine List.Sublist.append ?_ ih
      rcases hb : p.recommendation_batch_id with _ | b
      · simp [recPageKVs, hb]
      · by_cases he : b = ""
        · simp [recPageKVs, hb, he]
        · simp only [recPageKVs, hb, if_neg he]
          rw [recPageEntries_keys]

/-- `cumLen` of a page sequence whose non-final pages are all full pages of
size `ps` is `i * ps`. -/
theorem cumLen_full (sp : List SearchPage) (ps : Int) (i : Nat)
    (hi : i < sp.length)
    (hfull : ∀ j (pg : SearchPage), sp[j]? = some pg → j + 1 < sp.length →
      (pg.results.length : Int) = ps) :
    (cumLen sp i : Int) = i * ps := by
  induction sp generalizing i with
  | nil => cases hi
  | cons hd tl ih =>
      cases i with
      | zero => simp [cumLen]
      | succ i =>
          have hhd : (hd.results.length : Int) = ps := by
            refine hfull 0 hd (by simp) ?_
            simp only [List.length_cons] at hi ⊢
            omega
          have htl : ∀ j (pg : SearchPage), tl[j]? = some pg → j + 1 < tl.length →
              (pg.results.length : Int) = ps := by
            intro j pg hj hjl
            exact hfull (j + 1) pg (by simpa using hj) (by simpa using Nat.succ_lt_succ hjl)
          have hi' : i < tl.length := by simpa using Nat.lt_of_succ_lt_succ hi
          have := ih i hi' htl
          simp only [cumLen, List.take_succ_cons, List.map_cons, List.sum_cons] at *
          push_cast
          push_cast at this hhd
          rw [this, hhd]
          ring

theorem string_pos_iff_ne (s : String) : 0 < s.length ↔ s ≠ "" := by
  constructor
  · intro h he
    subst he
    simp at h
  · intro h
    cases hs : s.length with
    | zero => exact absurd (String.ext (List.length_eq_zero.mp hs)) h
    | succ n => omega

theorem searchContext_lookup (q : String) (sp : List SearchPage)
    (hq : searchActive q = true)
    (hnd : ((sp.flatMap (fun p => p.results)).map (fun r => r.node_id)).Nodup)
    (i idx : Nat) (p : SearchPage) (r : SearchResult)
    (hip : sp[i]? = some p) (hr : p.results[idx]? = some r) :
    searchContextByNodeId q sp r.node_id
      = some { searchId := p.search_id
               position := (p.page - 1) * p.page_size + (idx : Int) + 1 } := by
  rw [searchContextByNodeId_eq q sp hq]
  apply mapSets_mem_nodup
  · rw [searchEntries_flat_keys]
    exact hnd
  · apply List.mem_flatMap.mpr
    refine ⟨p, List.getElem?_mem hip, ?_⟩
    have hidx : (searchPageEntries p)[idx]?
        = some (r.node_id,
            { searchId := p.search_id
              position := (p.page - 1) * p.page_size + (idx : Int) + 1 }) := by
      simp only [searchPageEntries, List.getElem?_map, List.getElem?_enum, hr,
        Option.map_some']
    exact List.getElem?_mem hidx

theorem recContext_lookup (fp : List FeedPage)
    (hnd : ((fp.flatMap (fun p => p.results)).map (fun r => r.node_id)).Nodup)
    (i idx : Nat) (p : FeedPage) (r : FeedIssue) (b : String)
    (hip : fp[i]? = some p) (hb : p.recommendation_batch_id = some b)
    (hbne : b ≠ "") (hr : p.results[idx]? = some r) :
    recommendationContextByNodeId fp r.node_id
      = some { recommendationBatchId := b, position := (idx : Int) + 1 } := by
  rw [recommendationContextByNodeId_eq]
  apply mapSets_mem_nodup
  · exact List.Nodup.sublist (recEntries_flat_keys_sublist fp) hnd
  · apply List.mem_flatMap.mpr
    refine ⟨p, List.getElem?_mem hip, ?_⟩
    have hkv : recPageKVs p = recPageEntries b p := by
      simp [recPageKVs, hb, hbne]
    rw [hkv]
    have hidx : (recPageEntries b p)[idx]?
        = some (r.node_id,
            { recommendationBatchId := b, position := (idx : Int) + 1 }) := by
      simp only [recPageEntries, List.getElem?_map, List.getElem?_enum, hr,
        Option.map_some']
    exact List.getElem?_mem hidx

/-- The item at offset `idx` of the `i`-th page's results sits at cumulative
index `cumLen sp i + idx` of the concatenated result sequence. -/
theorem flatMap_results_getElem? (sp : List SearchPage) (i idx : Nat)
    (p : SearchPage) (r : SearchResult)
    (hip : sp[i]? = some p) (hr : p.results[idx]? = some r) :
    (sp.flatMap (fun pg => pg.results))[cumLen sp i + idx]? = some r := by
  have hmap : (sp.map (fun pg => pg.results))[i]? = some p.results := by
    rw [List.getElem?_map, hip, Option.map_some']
  have := flatten_getElem? (sp.map (fun pg => pg.results)) i idx p.results r hmap hr
  have hflat : (sp.map (fun pg => pg.results)).flatten = sp.flatMap (fun pg => pg.results) := by
    simp [List.flatMap]
  have hcum : (((sp.map (fun pg => pg.results)).take i).map List.length).sum
      = cumLen sp i := by
    rw [← List.map_take, List.map_map]
    rfl
  rw [hflat, hcum] at this
  exact this

/-- C2: at every state the rendered item list is the concatenation, in page
order with per-page result order preserved (no re-sorting, no de-duplication),
of the resolved pages of exactly one source: the search source iff the query
text is non-empty after trimming, otherwise the recommendation source; hence
the list never contains items drawn from both sources at once. -/
theorem items_single_active_source (q : String) (sp : List SearchPage)
    (fp : List FeedPage) :
    (searchActive q = true ↔ jsTrim q ≠ "") ∧
    (searchActive q = true →
      items q sp fp = (sp.map (fun p => p.results.map searchResultToItem)).flatten) ∧
    (searchActive q = false →
      items q sp fp = (fp.map (fun p => p.results.map feedResultToItem)).flatten) ∧
    (∀ it ∈ items q sp fp,
      (searchActive q = true ∧ ∃ p ∈ sp, ∃ r ∈ p.results, it = searchResultToItem r) ∨
      (searchActive q = false ∧ ∃ p ∈ fp, ∃ r ∈ p.results, it = feedResultToItem r)) := by
  have hiff : searchActive q = true ↔ jsTrim q ≠ "" := by
    unfold searchActive
    rw [decide_eq_true_eq]
    exact string_pos_iff_ne (jsTrim q)
  refine ⟨hiff, ?_, ?_, ?_⟩
  · intro hq
    simp only [items, hq, if_true, List.map_flatMap]
    simp [List.flatMap]
  · intro hq
    simp only [items, hq, Bool.false_eq_true, if_false, List.map_flatMap]
    simp [List.flatMap]
  · intro it hit
    by_cases hq : searchActive q = true
    · left
      refine ⟨hq, ?_⟩
      simp only [items, hq, if_true] at hit
      obtain ⟨r, hr, hconv⟩ := List.mem_map.mp hit
      obtain ⟨p, hp, hrp⟩ := List.mem_flatMap.mp hr
      exact ⟨p, hp, r, hrp, hconv.symm⟩
    · right
      rw [Bool.not_eq_true] at hq
      refine ⟨hq, ?_⟩
      simp only [items, hq, Bool.false_eq_true, if_false] at hit
      obtain ⟨r, hr, hconv⟩ := List.mem_map.mp hit
      obtain ⟨p, hp, hrp⟩ := List.mem_flatMap.mp hr
      exact ⟨p, hp, r, hrp, hconv.symm⟩

/-- Witness for C2: with query `"x"` the list is exactly the concatenated
converted search pages; with query `"  "` (whitespace only) it is exactly the
concatenated converted feed pages. -/
theorem items_single_active_source_witness :
    items "x" [sampleSearchPage, sampleSearchPage2] [sampleFeedPage]
      = ([sampleSearchPage, sampleSearchPage2].map
          (fun p => p.results.map searchResultToItem)).flatten ∧
    items "  " [sampleSearchPage, sampleSearchPage2] [sampleFeedPage]
      = ([sampleFeedPage].map (fun p => p.results.map feedResultToItem)).flatten := by
  exact ⟨(items_single_active_source "x" [sampleSearchPage, sampleSearchPage2]
            [sampleFeedPage]).2.1 (by decide),
         (items_single_active_source "  " [sampleSearchPage, sampleSearchPage2]
            [sampleFeedPage]).2.2.1 (by decide)⟩

/-- C3: in the engagement context maps, a search-sourced item's position is
its 1-based index across the concatenated page sequence — the code's
`(page - 1) * page_size + idx + 1` equals `cumLen + idx + 1` for a
consecutively numbered sequence of full pages of uniform size — while a
recommendation-sourced item's position is its 1-based index within its
originating page only. -/
theorem engagement_context_positions (q : String) (sp : List SearchPage)
    (fp : List FeedPage) (ps : Int)
    (hq : searchActive q = true)
    (hnds : ((sp.flatMap (fun p => p.results)).map (fun r => r.node_id)).Nodup)
    (hpages : ∀ (j : Nat) (pg : SearchPage), sp[j]? = some pg →
      pg.page = (j : Int) + 1 ∧ pg.page_size = ps)
    (hfull : ∀ (j : Nat) (pg : SearchPage), sp[j]? = some pg → j + 1 < sp.length →
      (pg.results.length : Int) = ps)
    (i idx : Nat) (p : SearchPage) (r : SearchResult)
    (hip : sp[i]? = some p) (hr : p.results[idx]? = some r)
    (hndf : ((fp.flatMap (fun pg => pg.results)).map (fun rr => rr.node_id)).Nodup)
    (i' idx' : Nat) (p' : FeedPage) (r' : FeedIssue) (b : String)
    (hip' : fp[i']? = some p') (hb : p'.recommendation_batch_id = some b)
    (hbne : b ≠ "") (hr' : p'.results[idx']? = some r') :
    searchContextByNodeId q sp r.node_id
      = some { searchId := p.search_id
               position := (cumLen sp i : Int) + (idx : Int) + 1 } ∧
    (p.page - 1) * p.page_size + (idx : Int) + 1
      = (cumLen sp i : Int) + (idx : Int) + 1 ∧
    (sp.flatMap (fun pg => pg.results))[cumLen sp i + idx]? = some r ∧
    recommendationContextByNodeId fp r'.node_id
      = some { recommendationBatchId := b, position := (idx' : Int) + 1 } := by
  have hcum : (cumLen sp i : Int) = (i : Int) * ps :=
    cumLen_full sp ps i (getElem?_some_lt hip) hfull
  obtain ⟨hpg, hps⟩ := hpages i p hip
  have hform : (p.page - 1) * p.page_size + (idx : Int) + 1
      = (cumLen sp i : Int) + (idx : Int) + 1 := by
    rw [hpg, hps, hcum]
    ring
  refine ⟨?_, hform, flatMap_results_getElem? sp i idx p r hip hr, ?_⟩
  · have := searchContext_lookup q sp hq hnds i idx p r hip hr
    rw [hform] at this
    exact this
  · exact recContext_lookup fp hndf i' idx' p' r' b hip' hb hbne hr'

/-- Witness for C3: with two full pages of size 1, the item on page 2 gets
cumulative position 2 (not 1), and the second feed item of batch `b1` gets
within-page position 2. -/
theorem engagement_context_positions_witness :
    searchContextByNodeId "x" [sampleSearchPage, sampleSearchPage2] "sn2"
      = some { searchId := "s1", position := 2 } ∧
    recommendationContextByNodeId [sampleFeedPage] "fn2"
      = some { recommendationBatchId := "b1", position := 2 } := by
  have hpages : ∀ (j : Nat) (pg : SearchPage),
      ([sampleSearchPage, sampleSearchPage2])[j]? = some pg →
      pg.page = (j : Int) + 1 ∧ pg.page_size = 1 := by
    intro j pg hj
    rcases j with _ | _ | j
    · simp only [List.getElem?_cons_zero, Option.some.injEq] at hj
      subst hj
      exact ⟨by decide, by decide⟩
    · simp only [List.getElem?_cons_succ, List.getElem?_cons_zero,
        Option.some.injEq] at hj
      subst hj
      exact ⟨by decide, by decide⟩
    · simp at hj
  have hfull : ∀ (j : Nat) (pg : SearchPage),
      ([sampleSearchPage, sampleSearchPage2])[j]? = some pg →
      j + 1 < ([sampleSearchPage, sampleSearchPage2]).length →
      ((pg.results.length : Int)) = 1 := by
    intro j pg hj hjl
    rcases j with _ | _ | j
    · simp only [List.getElem?_cons_zero, Option.some.injEq] at hj
      subst hj
      decide
    · simp at hjl
    · simp at hj
  have h := engagement_context_positions "x" [sampleSearchPage, sampleSearchPage2]
    [sampleFeedPage] 1 (by decide) (by decide)
    hpages hfull
    1 0 sampleSearchPage2 sampleSearchResult2 (by decide) (by decide)
    (by decide)
    0 1 sampleFeedPage sampleFeedIssue2 "b1" (by decide) (by decide)
    (by decide) (by decide)
  refine ⟨?_, ?_⟩
  · have h1 := h.1
    norm_num [cumLen, sampleSearchPage, sampleSearchResult2] at h1 ⊢
    exact h1
  · exact h.2.2.2

/-- C5: the loader calls `fetchNextPage` only when, at the moment the
observer callback runs, the sentinel is intersecting, `hasNextPage` is true
and no fetch is in flight; and from any exhausted idle state (`hasNext =
false`, nothing in flight) no trace of further events ever triggers a fetch,
even if the sentinel stays or becomes visible. -/
theorem loader_fetch_guard :
    (∀ s : LoaderState, (loaderNotify s).calls ≠ s.calls →
      s.visible = true ∧ s.hasNext = true ∧ s.fetching = false ∧
      (loaderNotify s).calls = s.calls + 1) ∧
    (∀ (s : LoaderState) (b : Bool),
      (loaderStep s (.setVisible b)).calls ≠ s.calls →
      b = true ∧ s.hasNext = true ∧ s.fetching = false) ∧
    (∀ (s : LoaderState) (hm g : Bool),
      (loaderStep s (.resolve hm g)).calls ≠ s.calls →
      s.fetching = true ∧ hm = true ∧ s.visible = true ∧ g = false) ∧
    (∀ (s : LoaderState) (t : List LoaderEvent),
      s.hasNext = false → s.fetching = false →
      (runLoader s t).calls = s.calls ∧ (runLoader s t).hasNext = false ∧
        (runLoader s t).fetching = false) := by
  have hnotify : ∀ s : LoaderState, (loaderNotify s).calls ≠ s.calls →
      s.visible = true ∧ s.hasNext = true ∧ s.fetching = false ∧
      (loaderNotify s).calls = s.calls + 1 := by
    intro s h
    unfold loaderNotify at h ⊢
    by_cases hg : (s.visible && s.hasNext && !s.fetching) = true
    · rw [if_pos hg] at h ⊢
      simp only [Bool.and_eq_true, Bool.not_eq_true'] at hg
      exact ⟨hg.1.1, hg.1.2, hg.2, rfl⟩
    · rw [if_neg hg] at h
      exact absurd rfl h
  refine ⟨hnotify, ?_, ?_, ?_⟩
  · intro s b h
    simp only [loaderStep] at h
    by_cases hb : b = s.visible
    · rw [if_pos hb] at h
      exact absurd rfl h
    · rw [if_neg hb] at h
      obtain ⟨hv, hn, hf, _⟩ := hnotify _ h
      exact ⟨hv, hn, hf⟩
  · intro s hm g h
    simp only [loaderStep] at h
    by_cases hf : s.fetching = true
    · rw [if_pos hf] at h
      obtain ⟨hv, hn, _, _⟩ := hnotify _ h
      simp only [Bool.and_eq_true, Bool.not_eq_true'] at hv
      exact ⟨hf, hn, hv.1, hv.2⟩
    · rw [if_neg hf] at h
      exact absurd rfl h
  · intro s t hn hf
    induction t generalizing s with
    | nil => exact ⟨rfl, hn, hf⟩
    | cons e t ih =>
        have hstep : (loaderStep s e).calls = s.calls ∧
            (loaderStep s e).hasNext = false ∧ (loaderStep s e).fetching = false := by
          cases e with
          | setVisible b =>
              simp only [loaderStep]
              by_cases hb : b = s.visible
              · rw [if_pos hb]
                exact ⟨rfl, hn, hf⟩
              · rw [if_neg hb]
                unfold loaderNotify
                rw [if_neg (by simp [hn])]
                exact ⟨rfl, hn, hf⟩
          | resolve hm g =>
              simp only [loaderStep]
              rw [if_neg (by simp [hf])]
              exact ⟨rfl, hn, hf⟩
        have := ih (loaderStep s e) hstep.2.1 hstep.2.2
        rw [runLoader] at *
        simp only [List.foldl_cons]
        rw [hstep.1] at this
        exact this

/-- Witness for C5: a visible-sentinel trace from the exhausted state makes no
call, and a notification in an in-flight state makes no call either. -/
theorem loader_fetch_guard_witness :
    (runLoader { visible := true, hasNext := false, fetching := false, calls := 3 }
      [.setVisible false, .setVisible true, .resolve true false]).calls = 3 := by
  exact ((loader_fetch_guard).2.2.2
    { visible := true, hasNext := false, fetching := false, calls := 3 }
    [.setVisible false, .setVisible true, .resolve true false] rfl rfl).1

/-- Counterexample to C4 as stated: starting idle with `hasNextPage = true`
and the sentinel not yet visible, the visibility transition triggers one
fetch; when that fetch resolves with `has_more = true` and the list has not
grown past the sentinel, the effect re-runs (its `isFetchingNextPage`
dependency changed), the recreated observer delivers its initial notification
for the still-visible sentinel, and `fetchNextPage` is called a second time —
the loader is not edge-triggered across effect re-subscriptions. -/
theorem loader_retrigger_counterexample :
    (runLoader { visible := false, hasNext := true, fetching := false, calls := 0 }
      [.setVisible true]).calls = 1 ∧
    (runLoader { visible := false, hasNext := true, fetching := false, calls := 0 }
      [.setVisible true, .resolve true false]).calls = 2 := by
  decide

/-- C4 (amended): every delivered notification makes at most one
`fetchNextPage` call; a resolution that leaves the sentinel visible with
`has_more = true` makes exactly one further call (level re-trigger across the
effect re-subscription); and while the observer subscription is unchanged a
non-transition of visibility delivers no callback and hence no call. -/
theorem loader_one_call_per_notification :
    (∀ (s : LoaderState) (e : LoaderEvent),
      (runLoader s [e]).calls ≤ s.calls + 1) ∧
    (∀ s : LoaderState, s.fetching = true → s.visible = true →
      (loaderStep s (.resolve true false)).calls = s.calls + 1 ∧
      (loaderStep s (.resolve true false)).fetching = true) ∧
    (∀ s : LoaderState, loaderStep s (.setVisible s.visible) = s) := by
  have hnote : ∀ s : LoaderState, (loaderNotify s).calls ≤ s.calls + 1 := by
    intro s
    unfold loaderNotify
    by_cases hg : (s.visible && s.hasNext && !s.fetching) = true
    · rw [if_pos hg]
    · rw [if_neg hg]
      omega
  refine ⟨?_, ?_, ?_⟩
  · intro s e
    show (loaderStep s e).calls ≤ s.calls + 1
    cases e with
    | setVisible b =>
        simp only [loaderStep]
        by_cases hb : b = s.visible
        · rw [if_pos hb]
          omega
        · rw [if_neg hb]
          exact hnote _
    | resolve hm g =>
        simp only [loaderStep]
        by_cases hf : s.fetching = true
        · rw [if_pos hf]
          exact hnote _
        · rw [if_neg hf]
          omega
  · intro s hf hv
    simp only [loaderStep]
    rw [if_pos hf]
    unfold loaderNotify
    rw [if_pos (by simp [hv])]
    exact ⟨rfl, rfl⟩
  · intro s
    simp [loaderStep]

/-- Witness for C4 (amended): a resolution with the sentinel still visible
re-triggers exactly one call from the concrete in-flight state. -/
theorem loader_one_call_per_notification_witness :
    (loaderStep { visible := true, hasNext := true, fetching := true, calls := 1 }
      (.resolve true false)).calls = 2 := by
  exact ((loader_one_call_per_notification).2.1
    { visible := true, hasNext := true, fetching := true, calls := 1 } rfl rfl).1

/-- C6: the bookmark create and delete mutations perform no optimistic local
update: they configure no `onMutate`; on failure the cache (and hence the
visible saved state) is exactly the pre-mutation one and the failure is
returned as a value, not thrown; on success the only cache change is the
`["bookmarks"]` invalidation mark, which leaves the cached index data (and
the visible saved state until the refetch) untouched. -/
theorem bookmark_mutations_not_optimistic :
    createBookmarkMutation.onMutate = none ∧
    deleteBookmarkMutation.onMutate = none ∧
    (∀ (input : CreateBookmarkPayload) (msg : String) (c : QueryCache),
      runMutation createBookmarkMutation input (.err msg) c = (c, .err msg)) ∧
    (∀ (bid msg : String) (c : QueryCache),
      runMutation deleteBookmarkMutation bid (.err msg) c = (c, .err msg)) ∧
    (∀ (input : CreateBookmarkPayload) (b : Bookmark) (c : QueryCache),
      runMutation createBookmarkMutation input (.ok b) c
        = (invalidateBookmarks c, .ok b)) ∧
    (∀ (bid : String) (c : QueryCache),
      runMutation deleteBookmarkMutation bid (.ok ()) c
        = (invalidateBookmarks c, .ok ())) ∧
    (∀ c : QueryCache, (invalidateBookmarks c).bookmarks = c.bookmarks) ∧
    (∀ (c : QueryCache) (n : String),
      isSavedFor (invalidateBookmarks c) n = isSavedFor c n) := by
  refine ⟨rfl, rfl, ?_, ?_, ?_, ?_, ?_, ?_⟩
  · intro input msg c
    rfl
  · intro bid msg c
    rfl
  · intro input b c
    rfl
  · intro bid c
    rfl
  · intro c
    rfl
  · intro c n
    rfl

/-- Counterexample to C7 as stated: in the browse client's
`handleToggleBookmark`, an unsaved item that HAS an explicit issue link still
gets a create payload carrying the synthesized repository URL — the fallback
is not used "exactly when the item has no explicit link" there. -/
theorem browse_toggle_url_counterexample :
    sampleItemWithLink.githubUrl = some "https://github.com/acme/widgets/issues/7" ∧
    browseHandleToggleBookmark (fun _ => none) sampleItemWithLink
      = .create { issue_node_id := "n7"
                  github_url := "https://github.com/acme/widgets"
                  title_snapshot := "leaky hose"
                  body_snapshot := "drip" } ∧
    "https://github.com/acme/widgets" ≠ "https://github.com/acme/widgets/issues/7" := by
  refine ⟨rfl, rfl, by decide⟩

/-- C7 (amended): for every toggle, a bookmark id in the index yields a delete
keyed by exactly that id, otherwise a create built from the current item
projection; in the for-you client the create's `github_url` is the item's
explicit link when present and the synthesized `https://github.com/{repoName}`
exactly otherwise, while the browse client's create always carries the
synthesized repository URL, ignoring the item's explicit link. -/
theorem toggle_bookmark_routing (bm : String → Option String)
    (issue : IssueListItemModel) :
    (∀ bid : String, bm issue.nodeId = some bid → bid ≠ "" →
      handleToggleBookmark bm issue = .delete bid ∧
      browseHandleToggleBookmark bm issue = .delete bid) ∧
    (bm issue.nodeId = none →
      handleToggleBookmark bm issue = .create (forYouCreatePayload issue) ∧
      browseHandleToggleBookmark bm issue = .create (browseCreatePayload issue)) ∧
    (forYouCreatePayload issue).issue_node_id = issue.nodeId ∧
    (forYouCreatePayload issue).title_snapshot = issue.title ∧
    (forYouCreatePayload issue).body_snapshot = issue.bodyPreview.getD "" ∧
    (∀ u : String, issue.githubUrl = some u → (forYouCreatePayload issue).github_url = u) ∧
    (issue.githubUrl = none →
      (forYouCreatePayload issue).github_url = "https://github.com/" ++ issue.repoName) ∧
    (browseCreatePayload issue).github_url = "https://github.com/" ++ issue.repoName := by
  refine ⟨?_, ?_, rfl, rfl, rfl, ?_, ?_, rfl⟩
  · intro bid hbid hne
    constructor
    · unfold handleToggleBookmark
      rw [hbid]
      simp [hne]
    · unfold browseHandleToggleBookmark
      rw [hbid]
      simp [hne]
  · intro hnone
    constructor
    · unfold handleToggleBookmark
      rw [hnone]
    · unfold browseHandleToggleBookmark
      rw [hnone]
  · intro u hu
    unfold forYouCreatePayload
    rw [hu]
    rfl
  · intro hnone
    unfold forYouCreatePayload
    rw [hnone]
    rfl

/-- Witness for C7 (amended): a saved item is deleted by its bookmark id; an
unsaved item with an explicit link is created with that link in the for-you
client and with the synthesized repo URL in the browse client. -/
theorem toggle_bookmark_routing_witness :
    handleToggleBookmark (fun k => if k = "n7" then some "bm9" else none)
      sampleItemWithLink = .delete "bm9" ∧
    handleToggleBookmark (fun _ => none) sampleItemWithLink
      = .create (forYouCreatePayload sampleItemWithLink) ∧
    (forYouCreatePayload sampleItemWithLink).github_url
      = "https://github.com/acme/widgets/issues/7" := by
  refine ⟨?_, ?_, ?_⟩
  · exact ((toggle_bookmark_routing (fun k => if k = "n7" then some "bm9" else none)
      sampleItemWithLink).1 "bm9" (by decide) (by decide)).1
  · exact ((toggle_bookmark_routing (fun _ => none) sampleItemWithLink).2.1 rfl).1
  · exact (toggle_bookmark_routing (fun _ => none) sampleItemWithLink).2.2.2.2.2.1
      "https://github.com/acme/widgets/issues/7" rfl

/-- C8: a user activation emits at most one telemetry call, routed by the
active source: with search active and a search context, exactly one search
interaction carrying that search id, the node id and that position; with the
recommendation source active and a recommendation context, exactly one click
event through the recommendation-events endpoint carrying that context; an
item without the relevant context emits nothing; and a call on the search
endpoint implies search was active while a call on the recommendation-events
endpoint implies it was not — the streams are never merged. -/
theorem click_telemetry_routing (q : String) (sCtx : String → Option SearchCtx)
    (rCtx : String → Option RecCtx) (nodeId : String) (freshId : Nat) :
    (∀ c : SearchCtx, searchActive q = true → sCtx nodeId = some c →
      onItemClick q sCtx rCtx nodeId freshId
        = some (.searchInteraction c.searchId nodeId c.position)) ∧
    (searchActive q = true → sCtx nodeId = none →
      onItemClick q sCtx rCtx nodeId freshId = none) ∧
    (∀ c : RecCtx, searchActive q = false → rCtx nodeId = some c →
      onItemClick q sCtx rCtx nodeId freshId
        = some (.recommendationEvents c.recommendationBatchId
            [{ event_id := freshId, event_type := "click", issue_node_id := nodeId
               position := c.position, surface := "for-you" }])) ∧
    (searchActive q = false → rCtx nodeId = none →
      onItemClick q sCtx rCtx nodeId freshId = none) ∧
    (∀ (sid sel : String) (pos : Int),
      onItemClick q sCtx rCtx nodeId freshId = some (.searchInteraction sid sel pos) →
      searchActive q = true) ∧
    (∀ (b : String) (evs : List EngagementEvent),
      onItemClick q sCtx rCtx nodeId freshId = some (.recommendationEvents b evs) →
      searchActive q = false ∧ evs.length = 1) := by
  refine ⟨?_, ?_, ?_, ?_, ?_, ?_⟩
  · intro c hq hc
    unfold onItemClick
    rw [hq, if_pos rfl, hc]
  · intro hq hc
    unfold onItemClick
    rw [hq, if_pos rfl, hc]
  · intro c hq hc
    unfold onItemClick
    rw [hq]
    simp only [Bool.false_eq_true, if_false]
    rw [hc]
  · intro hq hc
    unfold onItemClick
    rw [hq]
    simp only [Bool.false_eq_true, if_false]
    rw [hc]
  · intro sid sel pos h
    by_cases hq : searchActive q = true
    · exact hq
    · exfalso
      rw [Bool.not_eq_true] at hq
      unfold onItemClick at h
      rw [hq] at h
      simp only [Bool.false_eq_true, if_false] at h
      rcases hc : rCtx nodeId with _ | c
      · rw [hc] at h
        cases h
      · rw [hc] at h
        cases h
  · intro b evs h
    by_cases hq : searchActive q = true
    · exfalso
      unfold onItemClick at h
      rw [hq, if_pos rfl] at h
      rcases hc : sCtx nodeId with _ | c
      · rw [hc] at h
        cases h
      · rw [hc] at h
        cases h
    · rw [Bool.not_eq_true] at hq
      refine ⟨hq, ?_⟩
      unfold onItemClick at h
      rw [hq] at h
      simp only [Bool.false_eq_true, if_false] at h
      rcases hc : rCtx nodeId with _ | c
      · rw [hc] at h
        cases h
      · rw [hc] at h
        injection h with h
        injection h with _ hevs
        rw [← hevs]
        rfl

/-- Witness for C8: concrete search and recommendation activations each emit
exactly the routed single call. -/
theorem click_telemetry_routing_witness :
    onItemClick "x" (fun _ => some { searchId := "s1", position := 2 })
        (fun _ => none) "sn2" 11
      = some (.searchInteraction "s1" "sn2" 2) ∧
    onItemClick "" (fun _ => none)
        (fun _ => some { recommendationBatchId := "b1", position := 1 }) "fn1" 12
      = some (.recommendationEvents "b1"
          [{ event_id := 12, event_type := "click", issue_node_id := "fn1"
             position := 1, surface := "for-you" }]) := by
  refine ⟨?_, ?_⟩
  · exact (click_telemetry_routing "x" (fun _ => some { searchId := "s1", position := 2 })
      (fun _ => none) "sn2" 11).1 { searchId := "s1", position := 2 } (by decide) rfl
  · exact (click_telemetry_routing "" (fun _ => none)
      (fun _ => some { recommendationBatchId := "b1", position := 1 }) "fn1" 12).2.2.1
      { recommendationBatchId := "b1", position := 1 } (by decide) rfl

/-- C9: the auth guard issues a `router.replace` to `/login` exactly when the
current-user query failed with an axios 401; while the query is loading or in
any non-401 state (`isError` false, or the error not a 401) no redirect is
performed; and while redirecting the for-you page renders nothing, so no
further feed interaction is possible until re-authentication. -/
theorem auth_guard_redirect_iff (m : MeQueryState) :
    (authGuardEffect m = some "/login" ↔
      (m.isError = true ∧ is401 m.error = true)) ∧
    (∀ r : String, authGuardEffect m = some r → r = "/login") ∧
    (m.isError = false → authGuardEffect m = none ∧ forYouRendersFeed m = true) ∧
    (is401 m.error = false → authGuardEffect m = none) ∧
    (isRedirecting m = true → forYouRendersFeed m = false) ∧
    isRedirecting m = (m.isError && is401 m.error) := by
  refine ⟨?_, ?_, ?_, ?_, ?_, rfl⟩
  · constructor
    · intro h
      unfold authGuardEffect at h
      by_cases hg : (m.isError && is401 m.error) = true
      · exact Bool.and_eq_true_iff.mp hg
      · rw [if_neg hg] at h
        cases h
    · intro ⟨he, h4⟩
      unfold authGuardEffect
      rw [if_pos (by rw [he, h4]; rfl)]
  · intro r h
    unfold authGuardEffect at h
    by_cases hg : (m.isError && is401 m.error) = true
    · rw [if_pos hg] at h
      injection h with h
      exact h.symm
    · rw [if_neg hg] at h
      cases h
  · intro he
    constructor
    · unfold authGuardEffect
      rw [if_neg (by rw [he]; simp)]
    · unfold forYouRendersFeed isRedirecting
      rw [he]
      rfl
  · intro h4
    unfold authGuardEffect
    rw [if_neg (by rw [h4]; simp)]
  · intro hr
    unfold forYouRendersFeed
    rw [hr]
    rfl

/-- Witness for C9: a 401 axios failure redirects and blanks the page; a
loading state performs no redirect. -/
theorem auth_guard_redirect_iff_witness :
    authGuardEffect { isLoading := false, isSuccess := false, isError := true
                      error := some { isAxiosError := true, status := some 401 } }
      = some "/login" ∧
    authGuardEffect { isLoading := true, isSuccess := false, isError := false
                      error := none } = none := by
  refine ⟨?_, ?_⟩
  · exact (auth_guard_redirect_iff
      { isLoading := false, isSuccess := false, isError := true
        error := some { isAxiosError := true, status := some 401 } }).1.mpr
      ⟨rfl, by decide⟩
  · exact ((auth_guard_redirect_iff
      { isLoading := true, isSuccess := false, isError := false
        error := none }).2.2.1 rfl).1

theorem buildImpressionEvents_length (n : Nat) (rs : List FeedIssue) :
    (buildImpressionEvents n rs).length = rs.length := by
  simp [buildImpressionEvents, List.enum_length]

theorem buildImpressionEvents_ids (n : Nat) (rs : List FeedIssue) :
    (buildImpressionEvents n rs).map (fun e => e.event_id)
      = List.range' n rs.length := by
  simp only [buildImpressionEvents, List.map_map]
  calc rs.enum.map
        ((fun e : EngagementEvent => e.event_id) ∘ fun ir =>
          { event_id := n + ir.1, event_type := "impression"
            issue_node_id := ir.2.node_id, position := (ir.1 : Int) + 1
            surface := "for-you" })
      = (rs.enum.map Prod.fst).map (fun i => n + i) := by
        rw [List.map_map]
        rfl
    _ = (List.range rs.length).map (fun i => n + i) := by rw [List.enum_map_fst]
    _ = List.range' n rs.length := by
        rw [List.range'_eq_map_range]

theorem buildImpressionEvents_nodes (n : Nat) (rs : List FeedIssue) :
    (buildImpressionEvents n rs).map (fun e => e.issue_node_id)
      = rs.map (fun r => r.node_id) := by
  simp only [buildImpressionEvents, List.map_map]
  calc rs.enum.map
        ((fun e : EngagementEvent => e.issue_node_id) ∘ fun ir =>
          { event_id := n + ir.1, event_type := "impression"
            issue_node_id := ir.2.node_id, position := (ir.1 : Int) + 1
            surface := "for-you" })
      = (rs.enum.map Prod.snd).map (fun r => r.node_id) := by
        rw [List.map_map]
        rfl
    _ = rs.map (fun r => r.node_id) := by rw [List.enum_map_snd]

theorem buildImpressionEvents_positions (n : Nat) (rs : List FeedIssue) :
    (buildImpressionEvents n rs).map (fun e => e.position)
      = (List.range rs.length).map (fun i : Nat => (i : Int) + 1) := by
  have h1 : (buildImpressionEvents n rs).map (fun e => e.position)
      = (rs.enum.map Prod.fst).map (fun i : Nat => (i : Int) + 1) := by
    simp only [buildImpressionEvents, List.map_map]
    rfl
  rw [h1, List.enum_map_fst]

theorem buildImpressionEvents_fields (n : Nat) (rs : List FeedIssue) :
    ∀ e ∈ buildImpressionEvents n rs,
      e.event_type = "impression" ∧ e.surface = "for-you" := by
  intro e he
  obtain ⟨ir, _, hconv⟩ := List.mem_map.mp he
  rw [← hconv]
  exact ⟨rfl, rfl⟩

theorem buildImpressionEvents_ne_nil (n : Nat) (rs : List FeedIssue)
    (h : rs ≠ []) : buildImpressionEvents n rs ≠ [] := by
  intro hc
  apply h
  have := buildImpressionEvents_length n rs
  rw [hc] at this
  exact List.length_eq_zero.mp this.symm

/-- The submit branch of `processPage`, spelled out. -/
theorem processPage_submit (s : EmitterState) (page : FeedPage) (b : String)
    (hb : page.recommendation_batch_id = some b) (hbne : b ≠ "")
    (hnl : s.logged b = false) (hne : page.results ≠ []) :
    processPage s page =
      { logged := fun k => if k = b then true else s.logged k
        inflight := b :: s.inflight
        succeeded := s.succeeded
        nextId := s.nextId + page.results.length
        submitted := s.submitted
          ++ [⟨b, buildImpressionEvents s.nextId page.results⟩] } := by
  have hemp : (buildImpressionEvents s.nextId page.results).isEmpty = false := by
    rcases hev : buildImpressionEvents s.nextId page.results with _ | ⟨e, evs⟩
    · exact absurd hev (buildImpressionEvents_ne_nil s.nextId page.results hne)
    · rfl
  simp only [processPage, hb, if_neg hbne, hnl, Bool.false_eq_true, if_false,
    hemp, buildImpressionEvents_length]

theorem processPage_skip_none (s : EmitterState) (page : FeedPage)
    (hb : page.recommendation_batch_id = none) : processPage s page = s := by
  simp only [processPage, hb]

theorem processPage_skip_empty_batch (s : EmitterState) (page : FeedPage)
    (hb : page.recommendation_batch_id = some "") : processPage s page = s := by
  simp [processPage, hb]

theorem processPage_skip_logged (s : EmitterState) (page : FeedPage) (b : String)
    (hb : page.recommendation_batch_id = some b) (hl : s.logged b = true) :
    processPage s page = s := by
  by_cases hbe : b = ""
  · exact processPage_skip_empty_batch s page (hbe ▸ hb)
  · simp only [processPage, hb, if_neg hbe, hl, if_true]

theorem processPage_skip_no_results (s : EmitterState) (page : FeedPage)
    (b : String) (hb : page.recommendation_batch_id = some b)
    (he : page.results = []) : processPage s page = s := by
  by_cases hbe : b = ""
  · exact processPage_skip_empty_batch s page (hbe ▸ hb)
  · by_cases hl : s.logged b = true
    · exact processPage_skip_logged s page b hb hl
    · have hemp : (buildImpressionEvents s.nextId page.results).isEmpty = true := by
        rw [he]
        rfl
      rw [Bool.not_eq_true] at hl
      simp [processPage, hb, hbe, hl, hemp]

/-- Once a batch is in the logged set, a page-loop iteration keeps it there
and adds no submission for it. -/
theorem processPage_preserves_logged (s : EmitterState) (page : FeedPage)
    (b : String) (h : s.logged b = true) :
    (processPage s page).logged b = true ∧
    subCount (processPage s page).submitted b = subCount s.submitted b := by
  rcases hb : page.recommendation_batch_id with _ | b'
  · rw [processPage_skip_none s page hb]
    exact ⟨h, rfl⟩
  · by_cases hbe : b' = ""
    · rw [hbe] at hb
      rw [processPage_skip_empty_batch s page hb]
      exact ⟨h, rfl⟩
    · by_cases hl : s.logged b' = true
      · rw [processPage_skip_logged s page b' hb hl]
        exact ⟨h, rfl⟩
      · by_cases hres : page.results = []
        · rw [processPage_skip_no_results s page b' hb hres]
          exact ⟨h, rfl⟩
        · rw [Bool.not_eq_true] at hl
          have hne : b' ≠ b := by
            intro hc
            rw [hc, h] at hl
            cases hl
          rw [processPage_submit s page b' hb hbe hl hres]
          constructor
          · simp only
            rw [if_neg (fun hc => hne hc.symm)]
            exact h
          · simp [subCount, List.filter_append, hne]

/-- Once a batch is in the logged set, a whole recomputation keeps it there
and adds no submission for it. -/
theorem foldl_processPage_preserves (pages : List FeedPage) (s : EmitterState)
    (b : String) (h : s.logged b = true) :
    (pages.foldl processPage s).logged b = true ∧
    subCount (pages.foldl processPage s).submitted b = subCount s.submitted b := by
  induction pages generalizing s with
  | nil => exact ⟨h, rfl⟩
  | cons page rest ih =>
      simp only [List.foldl_cons]
      obtain ⟨h1, h2⟩ := processPage_preserves_logged s page b h
      obtain ⟨h3, h4⟩ := ih (processPage s page) h1
      exact ⟨h3, h4.trans h2⟩

theorem emitterInv_init : EmitterInv emitterInit := by
  refine ⟨?_, ?_, ?_, ?_, ?_, ?_, ?_, ?_⟩ <;> simp [emitterInit]

theorem emitterInv_processPage (s : EmitterState) (page : FeedPage)
    (h : EmitterInv s) : EmitterInv (processPage s page) := by
  rcases hb : page.recommendation_batch_id with _ | b
  · rw [processPage_skip_none s page hb]
    exact h
  · by_cases hbe : b = ""
    · rw [hbe] at hb
      rw [processPage_skip_empty_batch s page hb]
      exact h
    · by_cases hl : s.logged b = true
      · rw [processPage_skip_logged s page b hb hl]
        exact h
      · by_cases hres : page.results = []
        · rw [processPage_skip_no_results s page b hb hres]
          exact h
        · rw [Bool.not_eq_true] at hl
          rw [processPage_submit s page b hb hbe hl hres]
          have hbnotin : b ∉ s.inflight := fun hc => by
            rw [h.inflight_logged b hc] at hl
            cases hl
          have hbnotsucc : b ∉ s.succeeded := fun hc => by
            rw [h.succeeded_logged b hc] at hl
            cases hl
          have hids := buildImpressionEvents_ids s.nextId page.results
          refine ⟨?_, ?_, ?_, ?_, ?_, ?_, ?_, ?_⟩
          · intro c hc
            simp only
            rcases List.mem_cons.mp hc with rfl | hc
            · rw [if_pos rfl]
            · by_cases hcb : c = b
              · rw [if_pos hcb]
              · rw [if_neg hcb]
                exact h.inflight_logged c hc
          · intro c hc
            simp only
            by_cases hcb : c = b
            · rw [if_pos hcb]
            · rw [if_neg hcb]
              exact h.succeeded_logged c hc
          · exact List.Nodup.cons hbnotin h.inflight_nodup
          · intro c hc
            rcases List.mem_cons.mp hc with rfl | hc
            · exact hbnotsucc
            · exact h.disj c hc
          · exact h.succ_count
          · intro sub hsub e he
            simp only at hsub ⊢
            rcases List.mem_append.mp hsub with hsub | hsub
            · have := h.ids_bound sub hsub e he
              omega
            · rcases List.mem_singleton.mp hsub with rfl
              have : e.event_id ∈ (buildImpressionEvents s.nextId page.results).map
                  (fun ev => ev.event_id) := List.mem_map_of_mem _ he
              rw [hids] at this
              exact (List.mem_range'_1.mp this).2
          · simp only [List.flatMap_append, List.flatMap_cons, List.flatMap_nil,
              List.append_nil]
            rw [List.nodup_append]
            refine ⟨h.ids_nodup, ?_, ?_⟩
            · rw [hids]
              exact List.nodup_range' s.nextId page.results.length
            · intro a ha ha'
              obtain ⟨sub, hsub, ha⟩ := List.mem_flatMap.mp ha
              obtain ⟨e, he, rfl⟩ := List.mem_map.mp ha
              have hlt := h.ids_bound sub hsub e he
              rw [hids] at ha'
              have := (List.mem_range'_1.mp ha').1
              omega
          · intro c hc
            simp only at hc ⊢
            by_cases hcb : c = b
            · subst hcb
              refine ⟨⟨c, buildImpressionEvents s.nextId page.results⟩,
                List.mem_append_right _ (List.mem_singleton.mpr rfl), rfl,
                buildImpressionEvents_ne_nil s.nextId page.results hres⟩
            · rw [if_neg hcb] at hc
              obtain ⟨sub, hsub, hbatch, hne⟩ := h.logged_sub c hc
              exact ⟨sub, List.mem_append_left _ hsub, hbatch, hne⟩

theorem emitterInv_resolve (s : EmitterState) (b : String) (ok : Bool)
    (h : EmitterInv s) : EmitterInv (resolveSubmission s b ok) := by
  unfold resolveSubmission
  by_cases hin : b ∈ s.inflight
  · rw [if_pos hin]
    have hbnotsucc : b ∉ s.succeeded := h.disj b hin
    cases ok with
    | false =>
        rw [if_neg (by decide)]
        refine ⟨?_, ?_, ?_, ?_, ?_, ?_, ?_, ?_⟩
        · intro c hc
          simp only
          obtain ⟨hcb, hcin⟩ := (List.Nodup.mem_erase_iff h.inflight_nodup).mp hc
          rw [if_neg hcb]
          exact h.inflight_logged c hcin
        · intro c hc
          simp only
          have hcb : c ≠ b := fun hcb => hbnotsucc (hcb ▸ hc)
          rw [if_neg hcb]
          exact h.succeeded_logged c hc
        · exact h.inflight_nodup.erase b
        · intro c hc
          exact h.disj c (List.mem_of_mem_erase hc)
        · exact h.succ_count
        · exact h.ids_bound
        · exact h.ids_nodup
        · intro c hc
          simp only at hc
          by_cases hcb : c = b
          · rw [if_pos hcb] at hc
            cases hc
          · rw [if_neg hcb] at hc
            exact h.logged_sub c hc
    | true =>
        rw [if_pos rfl]
        refine ⟨?_, ?_, ?_, ?_, ?_, ?_, ?_, ?_⟩
        · intro c hc
          exact h.inflight_logged c (List.mem_of_mem_erase hc)
        · intro c hc
          rcases List.mem_cons.mp hc with rfl | hc
          · exact h.inflight_logged c hin
          · exact h.succeeded_logged c hc
        · exact h.inflight_nodup.erase b
        · intro c hc
          obtain ⟨hcb, hcin⟩ := (List.Nodup.mem_erase_iff h.inflight_nodup).mp hc
          intro hcs
          rcases List.mem_cons.mp hcs with rfl | hcs
          · exact hcb rfl
          · exact h.disj c hcin hcs
        · intro c
          rw [List.count_cons]
          by_cases hcb : c = b
          · subst hcb
            rw [List.count_eq_zero.mpr hbnotsucc]
            simp
          · have hbeq : (b == c) = false :=
              beq_eq_false_iff_ne.mpr (fun he => hcb he.symm)
            rw [hbeq]
            simp only [Bool.false_eq_true, if_false]
            have := h.succ_count c
            omega
        · exact h.ids_bound
        · exact h.ids_nodup
        · exact h.logged_sub
  · rw [if_neg hin]
    exact h

theorem emitterInv_foldl (pages : List FeedPage) (s : EmitterState)
    (h : EmitterInv s) : EmitterInv (pages.foldl processPage s) := by
  induction pages generalizing s with
  | nil => exact h
  | cons page rest ih =>
      simp only [List.foldl_cons]
      exact ih (processPage s page) (emitterInv_processPage s page h)

theorem emitterInv_step (s : EmitterState) (e : EmitterEvent)
    (h : EmitterInv s) : EmitterInv (emitterStep s e) := by
  cases e with
  | recompute q pages =>
      show EmitterInv (recomputeEmitter s q pages)
      unfold recomputeEmitter
      by_cases hq : searchActive q = true
      · rw [if_pos hq]
        exact h
      · rw [if_neg hq]
        exact emitterInv_foldl pages s h
  | resolve b ok => exact emitterInv_resolve s b ok h

theorem emitterInv_run (t : List EmitterEvent) : EmitterInv (runEmitter t) := by
  have haux : ∀ (u : List EmitterEvent) (s : EmitterState), EmitterInv s →
      EmitterInv (u.foldl emitterStep s) := by
    intro u
    induction u with
    | nil => exact fun s h => h
    | cons e rest ih =>
        intro s h
        simp only [List.foldl_cons]
        exact ih (emitterStep s e) (emitterInv_step s e h)
  exact haux t emitterInit emitterInv_init

/-- C1: for every resolved recommendation page with a truthy batch id not yet
logged, the effect submits one network call keyed by that batch id with one
impression event per item (fresh unique event id, type `impression`, the
item's node id, 1-based position within the page, surface `for-you`); across
any trace of recomputations and resolutions a batch is never re-submitted
while a submission for it is in flight or after one has succeeded, and it is
logged (succeeds) at most once — exactly once upon the first success. -/
theorem impression_batch_logged_at_most_once (t : List EmitterEvent)
    (b q : String) (pages : List FeedPage)
    (hb : b ∈ (runEmitter t).inflight ∨ b ∈ (runEmitter t).succeeded) :
    (∀ (n : Nat) (rs : List FeedIssue),
      (buildImpressionEvents n rs).length = rs.length ∧
      (buildImpressionEvents n rs).map (fun e => e.issue_node_id)
        = rs.map (fun r => r.node_id) ∧
      (buildImpressionEvents n rs).map (fun e => e.position)
        = (List.range rs.length).map (fun i : Nat => (i : Int) + 1) ∧
      ∀ e ∈ buildImpressionEvents n rs,
        e.event_type = "impression" ∧ e.surface = "for-you") ∧
    (∀ (s : EmitterState) (page : FeedPage) (b' : String),
      page.recommendation_batch_id = some b' → b' ≠ "" → s.logged b' = false →
      page.results ≠ [] →
      processPage s page =
        { logged := fun k => if k = b' then true else s.logged k
          inflight := b' :: s.inflight
          succeeded := s.succeeded
          nextId := s.nextId + page.results.length
          submitted := s.submitted
            ++ [⟨b', buildImpressionEvents s.nextId page.results⟩] }) ∧
    ((runEmitter t).submitted.flatMap
      (fun sub => sub.events.map (fun e => e.event_id))).Nodup ∧
    subCount (emitterStep (runEmitter t) (.recompute q pages)).submitted b
      = subCount (runEmitter t).submitted b ∧
    (runEmitter t).succeeded.count b ≤ 1 := by
  have hinv := emitterInv_run t
  have hlog : (runEmitter t).logged b = true := by
    rcases hb with hb | hb
    · exact hinv.inflight_logged b hb
    · exact hinv.succeeded_logged b hb
  refine ⟨?_, ?_, hinv.ids_nodup, ?_, hinv.succ_count b⟩
  · intro n rs
    exact ⟨buildImpressionEvents_length n rs, buildImpressionEvents_nodes n rs,
      buildImpressionEvents_positions n rs, buildImpressionEvents_fields n rs⟩
  · intro s page b' h1 h2 h3 h4
    exact processPage_submit s page b' h1 h2 h3 h4
  · show subCount (recomputeEmitter (runEmitter t) q pages).submitted b = _
    unfold recomputeEmitter
    by_cases hq : searchActive q = true
    · rw [if_pos hq]
    · rw [if_neg hq]
      exact (foldl_processPage_preserves pages (runEmitter t) b hlog).2

/-- Witness for C1: after one recomputation that submitted batch `b1`
(5-field events for its 2 items), re-running the recomputation with the same
resolved pages adds no second submission for `b1`, and `b1` has succeeded at
most once. -/
theorem impression_batch_logged_at_most_once_witness :
    subCount (emitterStep (runEmitter sampleTrace)
        (.recompute "" [sampleFeedPage])).submitted "b1"
      = subCount (runEmitter sampleTrace).submitted "b1" ∧
    (runEmitter sampleTrace).succeeded.count "b1" ≤ 1 := by
  have h := impression_batch_logged_at_most_once sampleTrace "b1" "" [sampleFeedPage]
    (Or.inl (by decide))
  exact ⟨h.2.2.2.1, h.2.2.2.2⟩

/-- C10: a resolved recommendation page with a non-null batch id but an empty
results list produces no logging call and does not enter the logged set; and
in every reachable emitter state the logged set only contains batch ids for
which a non-empty impression payload was actually submitted. -/
theorem empty_page_not_logged (s : EmitterState) (page : FeedPage) (b : String)
    (t : List EmitterEvent) (c : String)
    (hb : page.recommendation_batch_id = some b) (he : page.results = [])
    (hl : (runEmitter t).logged c = true) :
    processPage s page = s ∧
    ∃ sub ∈ (runEmitter t).submitted,
      sub.recommendation_batch_id = c ∧ sub.events ≠ [] := by
  exact ⟨processPage_skip_no_results s page b hb he,
    (emitterInv_run t).logged_sub c hl⟩

/-- Witness for C10: the empty page with batch `b2` leaves the initial state
untouched, while the logged batch `b1` of the sample trace has a non-empty
submission. -/
theorem empty_page_not_logged_witness :
    processPage emitterInit emptyFeedPage = emitterInit ∧
    ∃ sub ∈ (runEmitter sampleTrace).submitted,
      sub.recommendation_batch_id = "b1" ∧ sub.events ≠ [] := by
  exact empty_page_not_logged emitterInit emptyFeedPage "b2" sampleTrace "b1"
    rfl rfl (by decide)

end IssueIndex
